import Mathlib

/-!
Shallow embedding of `compute/web-process-image.go` from the
httplb-autoscaling-go repository, together with proofs of the behavioural
claims about its admission handler, retrying transport and worker pipeline.

Go strings are modelled as `List Char`; HTTP body byte streams as
`List Nat`.  Fallible operations return `Except` values; the effects of a
worker on the outside world (filesystem, storage service, subprocesses)
are recorded as an explicit trace.
-/

/-- Constant `NumImageProcessors` from the source. -/
def NumImageProcessors : Nat := 2

/-- Constant `ImageProcessQueueSize` from the source. -/
def ImageProcessQueueSize : Nat := 50

/-- Constant `ThumbnailSuffix = "-t"` from the source. -/
def ThumbnailSuffix : List Char := "-t".toList

/- ---------------------------------------------------------------------
   Path helpers used by getProcessImageReq, modelling the Go functions `path.Split`,
   `strings.Trim(s, "/")` and `filepath.Ext`.
   --------------------------------------------------------------------- -/

/-- Go `path.Split(p)`: splits after the final slash; the directory part
keeps its trailing slash and the file part contains no slash. -/
def pathSplit (p : List Char) : List Char × List Char :=
  let file := (p.reverse.takeWhile (fun c => c ≠ '/')).reverse
  (p.take (p.length - file.length), file)

/-- Go `strings.Trim(s, "/")`: removes every leading and trailing slash. -/
def trimSlashes (s : List Char) : List Char :=
  ((s.dropWhile (fun c => c = '/')).reverse.dropWhile (fun c => c = '/')).reverse

/-- Scan of the reversed path used by `filepath.Ext`: walk from the end of
the string, stop with the empty extension at a path separator or at the
start, and return everything from the final dot onwards when one is found.
`acc` holds the characters already passed, in original order. -/
def goExt (acc : List Char) : List Char → List Char
  | [] => []
  | c :: rest =>
    if c = '/' then []
    else if c = '.' then c :: acc
    else goExt (c :: acc) rest

/-- Go `filepath.Ext(f)`: the suffix beginning at the final dot of the last
path element, empty when there is no dot. -/
def filepathExt (f : List Char) : List Char :=
  goExt [] f.reverse

/- ---------------------------------------------------------------------
   The request model and the admission handler.
   --------------------------------------------------------------------- -/

/-- Structure `processImageReq` from the source: a request to transform one image. -/
structure processImageReq where
  sourceBucket : List Char
  filename : List Char
  saveToBucket : List Char
  saveToFilename : List Char
  deriving DecidableEq, Repr

/-- Function `getProcessImageReq` from the source.  `idVal` models
`r.FormValue("id")` (the empty list when the field is absent) and
`saveTo` models `r.FormValue("save-to")`. -/
def getProcessImageReq (idVal saveTo : List Char) :
    Except (List Char) processImageReq :=
  if idVal = [] then
    .error ("Request did not provide image id.".toList)
  else
    let sp := pathSplit idVal
    let sourceBucket := trimSlashes sp.1
    let filename := sp.2
    let extension := filepathExt filename
    let name := filename.take (filename.length - extension.length)
    let saveToFilename := name ++ ThumbnailSuffix ++ extension
    .ok { sourceBucket := sourceBucket, filename := filename,
          saveToBucket := saveTo, saveToFilename := saveToFilename }

deriving instance DecidableEq for Except

/-- Result of one call to `imagemagickHandler.ServeHTTP`: the HTTP status
written, the response body, and the queue contents afterwards. -/
structure AdmissionResult where
  status : Nat
  body : List Char
  queue : List processImageReq
  deriving DecidableEq, Repr

/-- Method `imagemagickHandler.ServeHTTP` from the source.  The buffered channel
is modelled as a list `q` bounded by `cap`; the non-blocking
`select`/`default` enqueue succeeds exactly when the buffer has a free
slot.  A parse failure writes status 500; a full queue writes 503; an
accepted request is appended and the handler answers 200 with
`hostname=<hostname>`. -/
def serveHTTP (hostname : List Char) (cap : Nat) (q : List processImageReq)
    (idVal saveTo : List Char) : AdmissionResult :=
  match getProcessImageReq idVal saveTo with
  | .error _ => { status := 500, body := [], queue := q }
  | .ok req =>
    if q.length < cap then
      { status := 200, body := "hostname=".toList ++ hostname,
        queue := q ++ [req] }
    else
      { status := 503, body := [], queue := q }

/- ---------------------------------------------------------------------
   Lemmas about the path helpers.
   --------------------------------------------------------------------- -/

/-- The file part produced by `pathSplit` contains no slash. -/
theorem pathSplit_no_slash (p : List Char) : '/' ∉ (pathSplit p).2 := by
  intro hm
  have h1 : '/' ∈ List.takeWhile (fun c => decide (c ≠ '/')) p.reverse := by
    simpa [pathSplit] using hm
  have h2 := List.mem_takeWhile_imp h1
  simp at h2

/-- Scanner `goExt` returns the empty extension on a dot-free string. -/
theorem goExt_no_dot (l acc : List Char) (h : '.' ∉ l) : goExt acc l = [] := by
  induction l generalizing acc with
  | nil => rfl
  | cons c t ih =>
    simp only [goExt]
    by_cases hc : c = '/'
    · simp [hc]
    · have hcd : ¬ c = '.' := fun hh => h (by simp [hh])
      rw [if_neg hc, if_neg hcd]
      exact ih _ (fun hm => h (List.mem_cons_of_mem _ hm))

/-- Scanning past dot-free, slash-free characters, `goExt` stops at the
first dot and returns it together with everything already passed. -/
theorem goExt_finds_dot (l : List Char) (acc rest : List Char)
    (h : ∀ c ∈ l, c ≠ '.' ∧ c ≠ '/') :
    goExt acc (l ++ '.' :: rest) = '.' :: (l.reverse ++ acc) := by
  induction l generalizing acc with
  | nil => simp [goExt]
  | cons c t ih =>
    have hc := h c (by simp)
    have hstep : (c :: t) ++ '.' :: rest = c :: (t ++ '.' :: rest) := rfl
    rw [hstep]
    simp only [goExt]
    rw [if_neg hc.2, if_neg hc.1]
    have hrec := ih (c :: acc) (fun x hx => h x (by simp [hx]))
    simpa using hrec

/-- Extension `filepathExt` of a name of the form `b ++ "." ++ e`, where `e` holds
no further dot and no slash, is `"." ++ e`. -/
theorem filepathExt_append_dot (b e : List Char) (hd : '.' ∉ e)
    (hs : '/' ∉ e) : filepathExt (b ++ '.' :: e) = '.' :: e := by
  have hrev : (b ++ '.' :: e).reverse = e.reverse ++ '.' :: b.reverse := by
    simp [List.reverse_append]
  rw [filepathExt, hrev, goExt_finds_dot]
  · simp
  · intro c hc
    have hce : c ∈ e := List.mem_reverse.mp hc
    exact ⟨fun h => hd (h ▸ hce), fun h => hs (h ▸ hce)⟩

/- ---------------------------------------------------------------------
   Admission-handler claims.
   --------------------------------------------------------------------- -/

/-- Claim C1: for a well-formed admission request (the id field present),
the outcome of the handler is decided solely by queue occupancy: with a free
slot the request is enqueued, the status is 200 and occupancy grows by
exactly one; at (or beyond) capacity the status is 503 and the queue is
unchanged.  The handler is a total function of the queue state, so it
never blocks. -/
theorem admission_decided_by_occupancy (hostname : List Char) (cap : Nat)
    (q : List processImageReq) (idVal saveTo : List Char) (hwf : idVal ≠ []) :
    (q.length < cap →
      (serveHTTP hostname cap q idVal saveTo).status = 200 ∧
      ∃ r, getProcessImageReq idVal saveTo = .ok r ∧
        (serveHTTP hostname cap q idVal saveTo).queue = q ++ [r] ∧
        (serveHTTP hostname cap q idVal saveTo).queue.length = q.length + 1) ∧
    (¬ q.length < cap →
      (serveHTTP hostname cap q idVal saveTo).status = 503 ∧
      (serveHTTP hostname cap q idVal saveTo).queue = q) := by
  simp only [getProcessImageReq, if_neg hwf, serveHTTP]
  constructor
  · intro hlt
    rw [if_pos hlt]
    exact ⟨rfl, _, rfl, rfl, by simp⟩
  · intro hge
    rw [if_neg hge]
    exact ⟨rfl, rfl⟩

/-- Named sample request, used by concrete witnesses below. -/
def sampleReq : processImageReq :=
  { sourceBucket := "b".toList, filename := "a.jpg".toList,
    saveToBucket := "o".toList, saveToFilename := "a-t.jpg".toList }

/-- Witness for C1: with capacity 1 and an empty queue the id `b/a.jpg`
is admitted with 200 and occupancy 1; with the queue already holding one
request the same id is rejected with 503 and the queue is unchanged. -/
theorem admission_decided_by_occupancy_witness :
    ((serveHTTP ("h".toList) 1 [] ("b/a.jpg".toList) ("o".toList)).status = 200 ∧
      (serveHTTP ("h".toList) 1 [] ("b/a.jpg".toList) ("o".toList)).queue.length = 1) ∧
    ((serveHTTP ("h".toList) 1 [sampleReq] ("b/a.jpg".toList) ("o".toList)).status = 503 ∧
      (serveHTTP ("h".toList) 1 [sampleReq] ("b/a.jpg".toList) ("o".toList)).queue = [sampleReq]) := by
  constructor
  · obtain ⟨h1, r, hr, hq, hlen⟩ :=
      (admission_decided_by_occupancy ("h".toList) 1 [] ("b/a.jpg".toList)
        ("o".toList) (by decide)).1 (by decide)
    exact ⟨h1, by simpa using hlen⟩
  · exact (admission_decided_by_occupancy ("h".toList) 1 [sampleReq]
      ("b/a.jpg".toList) ("o".toList) (by decide)).2 (by decide)

/-- Claim C8 (amended): admission answers 500 exactly when the id form
value is missing (empty); in that case nothing is enqueued.  Any
non-empty identifier is accepted by the parser, even one that has no
slash and hence no bucket component. -/
theorem admission_500_iff_missing_id (hostname : List Char) (cap : Nat)
    (q : List processImageReq) (idVal saveTo : List Char) :
    ((serveHTTP hostname cap q idVal saveTo).status = 500 ↔ idVal = []) ∧
    (idVal = [] → (serveHTTP hostname cap q idVal saveTo).queue = q) := by
  by_cases h : idVal = []
  · subst h
    simp [serveHTTP, getProcessImageReq]
  · constructor
    · constructor
      · intro h5
        exfalso
        simp only [serveHTTP, getProcessImageReq, if_neg h] at h5
        by_cases hlt : q.length < cap
        · rw [if_pos hlt] at h5
          simp at h5
        · rw [if_neg hlt] at h5
          simp at h5
      · intro h'
        exact absurd h' h
    · intro h'
      exact absurd h' h

/-- Claim C8 counterexample: the identifier `photo.jpg` contains no slash,
so it cannot be split into a bucket and an object name; the claim then
demands a 500 with no enqueue, but the handler parses it (with an empty
source bucket), answers 200 and enqueues the request. -/
theorem admission_no_bucket_id_accepted :
    ('/' ∉ ("photo.jpg".toList)) ∧
    getProcessImageReq ("photo.jpg".toList) ("o".toList) =
      .ok { sourceBucket := [], filename := "photo.jpg".toList,
            saveToBucket := "o".toList,
            saveToFilename := "photo-t.jpg".toList } ∧
    (serveHTTP ("h".toList) ImageProcessQueueSize [] ("photo.jpg".toList)
        ("o".toList)).status = 200 ∧
    (serveHTTP ("h".toList) ImageProcessQueueSize [] ("photo.jpg".toList)
        ("o".toList)).queue.length = 1 := by
  decide

/-- Witness for C8 at the empty identifier: the handler answers 500 and
leaves the queue unchanged. -/
theorem admission_500_iff_missing_id_witness :
    (serveHTTP ("h".toList) ImageProcessQueueSize [sampleReq] [] ("o".toList)).status = 500 ∧
    (serveHTTP ("h".toList) ImageProcessQueueSize [sampleReq] [] ("o".toList)).queue = [sampleReq] := by
  have h := admission_500_iff_missing_id ("h".toList) ImageProcessQueueSize
    [sampleReq] [] ("o".toList)
  exact ⟨h.1.mpr rfl, h.2 rfl⟩

/-- Claim C6: for a well-formed admission request whose object name has a
file extension (it splits as `b ++ "." ++ e` with `e` dot-free), the
derived destination object name is the base name, then the fixed suffix
`-t`, then the original extension.  The derivation is a pure function of
the identifier, hence deterministic. -/
theorem derived_name_inserts_suffix (idVal saveTo b e : List Char)
    (hwf : idVal ≠ []) (hsplit : (pathSplit idVal).2 = b ++ '.' :: e)
    (hd : '.' ∉ e) :
    getProcessImageReq idVal saveTo =
      .ok { sourceBucket := trimSlashes (pathSplit idVal).1,
            filename := b ++ '.' :: e,
            saveToBucket := saveTo,
            saveToFilename := b ++ ThumbnailSuffix ++ '.' :: e } := by
  have hs : '/' ∉ e := by
    intro hm
    exact pathSplit_no_slash idVal
      (by rw [hsplit]; exact List.mem_append_right b (List.mem_cons_of_mem _ hm))
  have hext : filepathExt ((pathSplit idVal).2) = '.' :: e := by
    rw [hsplit]
    exact filepathExt_append_dot b e hd hs
  have hname : ((pathSplit idVal).2).take
      ((pathSplit idVal).2.length - (filepathExt (pathSplit idVal).2).length) = b := by
    rw [hext, hsplit]
    have hlen : (b ++ '.' :: e).length - ('.' :: e).length = b.length := by simp
    rw [hlen]
    exact List.take_left b ('.' :: e)
  simp only [getProcessImageReq, if_neg hwf]
  rw [hname, hext, hsplit]

/-- Witness for C6: `input/eiffel.jpg` yields destination object name
`eiffel-t.jpg`. -/
theorem derived_name_inserts_suffix_witness :
    getProcessImageReq ("input/eiffel.jpg".toList) ("o".toList) =
      .ok { sourceBucket := "input".toList, filename := "eiffel.jpg".toList,
            saveToBucket := "o".toList,
            saveToFilename := "eiffel-t.jpg".toList } := by
  have h := derived_name_inserts_suffix ("input/eiffel.jpg".toList) ("o".toList)
    ("eiffel".toList) ("jpg".toList) (by decide) (by decide) (by decide)
  rw [h]
  decide

/-- Claim C10: a non-empty identifier whose object name contains no dot is
accepted, and the derived destination object name is the object name with
the suffix `-t` appended at the end. -/
theorem derived_name_no_extension (idVal saveTo : List Char) (hwf : idVal ≠ [])
    (hd : '.' ∉ (pathSplit idVal).2) :
    getProcessImageReq idVal saveTo =
      .ok { sourceBucket := trimSlashes (pathSplit idVal).1,
            filename := (pathSplit idVal).2,
            saveToBucket := saveTo,
            saveToFilename := (pathSplit idVal).2 ++ ThumbnailSuffix } := by
  have hext : filepathExt ((pathSplit idVal).2) = [] :=
    goExt_no_dot _ [] (fun hm => hd (List.mem_reverse.mp hm))
  simp only [getProcessImageReq, if_neg hwf]
  rw [hext]
  simp

/-- Witness for C10: `bucket/name` yields destination object name
`name-t`. -/
theorem derived_name_no_extension_witness :
    getProcessImageReq ("bucket/name".toList) ("o".toList) =
      .ok { sourceBucket := "bucket".toList, filename := "name".toList,
            saveToBucket := "o".toList, saveToFilename := "name-t".toList } := by
  have h := derived_name_no_extension ("bucket/name".toList) ("o".toList)
    (by decide) (by decide)
  rw [h]
  decide

/- ---------------------------------------------------------------------
   The retrying transport (RetryTransport.RoundTrip / copyRequest).
   --------------------------------------------------------------------- -/

/-- HTTP status constants used by the retryable-code table. -/
def statusForbidden : Nat := 403

/-- HTTP 500. -/
def statusInternalServerError : Nat := 500

/-- HTTP 502. -/
def statusBadGateway : Nat := 502

/-- HTTP 503. -/
def statusServiceUnavailable : Nat := 503

/-- HTTP 504. -/
def statusGatewayTimeout : Nat := 504

/-- Value of `maxTries` wired into the `RetryTransport` at construction time. -/
def retryTransportMaxTries : Nat := 5

/-- The `retryableCodes` map from the source, as its membership test. -/
def retryableCodes (c : Nat) : Bool :=
  c == statusForbidden || c == statusInternalServerError ||
    c == statusBadGateway || c == statusServiceUnavailable ||
    c == statusGatewayTimeout

/-- An HTTP response: status code, body bytes, and whether the body
stream has been closed. -/
structure HttpResponse where
  status : Nat
  body : List Nat
  bodyClosed : Bool
  deriving DecidableEq, Repr

/-- Model of `resp.Body.Close()` on a response. -/
def closeBody (r : HttpResponse) : HttpResponse :=
  { r with bodyClosed := true }

/-- An outbound HTTP request as seen by the transport.  `hasBody` is
whether `req.Body` is nil; `bodyRemaining` is the unread remainder of the
body stream (reading it consumes it). -/
structure HttpRequest where
  method : List Char
  url : List Char
  headers : List (List Char × List Char)
  hasBody : Bool
  bodyRemaining : List Nat
  deriving DecidableEq, Repr

/-- What one attempt put on the wire: method, URL, headers, and the body
bytes actually transmitted (`none` for a request without a body). -/
structure SentRecord where
  method : List Char
  url : List Char
  headers : List (List Char × List Char)
  sentBody : Option (List Nat)
  deriving DecidableEq, Repr

/-- The request transmitted by attempt `i` of `RetryTransport.RoundTrip`.
Attempt 0 sends the original request itself; when it had a body,
`ioutil.ReadAll(req.Body)` has already consumed the stream, so no body
bytes remain to transmit.  Every later attempt sends the request rebuilt
by `copyRequest`, which carries the same method, URL and headers and a
fresh reader over the buffered body. -/
def requestSentAt (req : HttpRequest) (buffered : List Nat) : Nat → SentRecord
  | 0 => { method := req.method, url := req.url, headers := req.headers,
           sentBody := if req.hasBody then some [] else none }
  | _ + 1 => { method := req.method, url := req.url, headers := req.headers,
               sentBody := some buffered }

/-- The retry loop of `RetryTransport.RoundTrip`.  `oracle i` is the
outcome the wrapped transport produces for attempt `i` (a response or a
transport-level error); `sentAt i` is the request transmitted by attempt
`i`; `fuel` is the number of loop iterations still allowed.  Returns the
final `(resp, err)` pair (`none` when the loop never ran) and the list of
requests transmitted.  A response with a non-retryable status code ends
the loop at once; a retryable response has its body closed and the loop
continues; a transport error also continues the loop.  When the
iterations are exhausted, the last outcome is returned — a last retryable
response is returned after its body was closed. -/
def rtLoop (oracle : Nat → Except (List Char) HttpResponse)
    (sentAt : Nat → SentRecord) (i fuel : Nat) :
    Option (Except (List Char) HttpResponse) × List SentRecord :=
  match fuel with
  | 0 => (none, [])
  | fuel' + 1 =>
    match oracle i with
    | .ok resp =>
      if retryableCodes resp.status then
        match fuel' with
        | 0 => (some (.ok (closeBody resp)), [sentAt i])
        | _ + 1 =>
          let p := rtLoop oracle sentAt (i + 1) fuel'
          (p.1, sentAt i :: p.2)
      else
        (some (.ok resp), [sentAt i])
    | .error e =>
      match fuel' with
      | 0 => (some (.error e), [sentAt i])
      | _ + 1 =>
        let p := rtLoop oracle sentAt (i + 1) fuel'
        (p.1, sentAt i :: p.2)

/-- Method `RetryTransport.RoundTrip` from the source: buffer the request body
(consuming the incoming stream), then run the attempt loop up to
`maxTries` times. -/
def roundTrip (maxTries : Nat) (oracle : Nat → Except (List Char) HttpResponse)
    (req : HttpRequest) :
    Option (Except (List Char) HttpResponse) × List SentRecord :=
  let buffered := if req.hasBody then req.bodyRemaining else []
  rtLoop oracle (requestSentAt req buffered) 0 maxTries

/- ---------------------------------------------------------------------
   Retrying-transport claims.
   --------------------------------------------------------------------- -/

/-- Claim C5: the retryable set is exactly {403, 500, 502, 503, 504}; a
successful response outside the set ends the loop immediately with that
response after this single attempt, while a retryable response (with
iterations remaining) is discarded — the outcome of the call is that of the
remaining attempts — and the call is retried. -/
theorem retryable_set_and_loop_exit :
    (∀ c : Nat, retryableCodes c = true ↔
      (c = 403 ∨ c = 500 ∨ c = 502 ∨ c = 503 ∨ c = 504)) ∧
    (∀ (oracle : Nat → Except (List Char) HttpResponse)
      (sentAt : Nat → SentRecord) (i fuel : Nat) (resp : HttpResponse),
      oracle i = .ok resp → retryableCodes resp.status = false →
      rtLoop oracle sentAt i (fuel + 1) = (some (.ok resp), [sentAt i])) ∧
    (∀ (oracle : Nat → Except (List Char) HttpResponse)
      (sentAt : Nat → SentRecord) (i fuel : Nat) (resp : HttpResponse),
      oracle i = .ok resp → retryableCodes resp.status = true →
      rtLoop oracle sentAt i (fuel + 2) =
        ((rtLoop oracle sentAt (i + 1) (fuel + 1)).1,
          sentAt i :: (rtLoop oracle sentAt (i + 1) (fuel + 1)).2)) := by
  refine ⟨?_, ?_, ?_⟩
  · intro c
    simp only [retryableCodes, statusForbidden, statusInternalServerError,
      statusBadGateway, statusServiceUnavailable, statusGatewayTimeout,
      Bool.or_eq_true, beq_iff_eq]
    tauto
  · intro oracle sentAt i fuel resp hor hnr
    simp [rtLoop, hor, hnr]
  · intro oracle sentAt i fuel resp hor hr
    simp [rtLoop, hor, hr]

/-- Oracle used by transport witnesses: attempt 0 answers a retryable 503,
every later attempt a non-retryable 200. -/
def witOracle : Nat → Except (List Char) HttpResponse
  | 0 => .ok { status := 503, body := [], bodyClosed := false }
  | _ + 1 => .ok { status := 200, body := [], bodyClosed := false }

/-- Fixed transmitted-request view used by transport witnesses. -/
def witSent : Nat → SentRecord := fun _ =>
  { method := "GET".toList, url := "u".toList, headers := [], sentBody := none }

/-- Witness for C5: 403 is retryable; a 200 at attempt 1 ends the loop with
that response; a 503 at attempt 0 leads to a further attempt. -/
theorem retryable_set_and_loop_exit_witness :
    retryableCodes 403 = true ∧
    rtLoop witOracle witSent 1 1 =
      (some (.ok { status := 200, body := [], bodyClosed := false }), [witSent 1]) ∧
    rtLoop witOracle witSent 0 2 =
      ((rtLoop witOracle witSent 1 1).1,
        witSent 0 :: (rtLoop witOracle witSent 1 1).2) := by
  refine ⟨?_, ?_, ?_⟩
  · exact (retryable_set_and_loop_exit.1 403).mpr (Or.inl rfl)
  · exact retryable_set_and_loop_exit.2.1 witOracle witSent 1 0
      { status := 200, body := [], bodyClosed := false } rfl rfl
  · exact retryable_set_and_loop_exit.2.2 witOracle witSent 0 0
      { status := 503, body := [], bodyClosed := false } rfl rfl

/-- All-retryable runs of the loop: if each of the `n + 1` attempts from
`i` on yields a retryable response, the loop performs exactly `n + 1`
attempts and returns the last response with its body closed. -/
theorem rtLoop_all_retryable (n : Nat) :
    ∀ (i : Nat) (oracle : Nat → Except (List Char) HttpResponse)
      (sentAt : Nat → SentRecord),
      (∀ j, j ≤ n → ∃ r, oracle (i + j) = .ok r ∧ retryableCodes r.status = true) →
      ∀ rl, oracle (i + n) = .ok rl →
        (rtLoop oracle sentAt i (n + 1)).1 = some (.ok (closeBody rl)) ∧
        (rtLoop oracle sentAt i (n + 1)).2.length = n + 1 := by
  induction n with
  | zero =>
    intro i oracle sentAt h rl hrl
    obtain ⟨r, hr, hret⟩ := h 0 (Nat.le_refl 0)
    rw [Nat.add_zero] at hr hrl
    rw [hr] at hrl
    injection hrl with hrr
    subst hrr
    constructor
    · simp [rtLoop, hr, hret]
    · simp [rtLoop, hr, hret]
  | succ n ih =>
    intro i oracle sentAt h rl hrl
    obtain ⟨r0, hr0, hret0⟩ := h 0 (Nat.zero_le _)
    rw [Nat.add_zero] at hr0
    have hshift : ∀ j, j ≤ n →
        ∃ r, oracle (i + 1 + j) = .ok r ∧ retryableCodes r.status = true := by
      intro j hj
      obtain ⟨r, hr, hret⟩ := h (j + 1) (Nat.succ_le_succ hj)
      refine ⟨r, ?_, hret⟩
      have heq : i + 1 + j = i + (j + 1) := by omega
      rw [heq]
      exact hr
    have hrl' : oracle (i + 1 + n) = .ok rl := by
      have heq : i + 1 + n = i + (n + 1) := by omega
      rw [heq]
      exact hrl
    have hrec := ih (i + 1) oracle sentAt hshift rl hrl'
    have hstep : rtLoop oracle sentAt i (n + 1 + 1) =
        ((rtLoop oracle sentAt (i + 1) (n + 1)).1,
          sentAt i :: (rtLoop oracle sentAt (i + 1) (n + 1)).2) := by
      simp [rtLoop, hr0, hret0]
    rw [hstep]
    exact ⟨hrec.1, by simp [hrec.2]⟩

/-- Claim C4 (amended): if all `maxTries` attempts yield retryable
responses, the call performs exactly `maxTries` attempts and returns the
final retryable response with its status and body bytes intact but its
body closed (the loop closes the body of every retryable response, the last
one included, before returning it). -/
theorem all_retryable_returns_last_closed (maxTries : Nat)
    (oracle : Nat → Except (List Char) HttpResponse) (req : HttpRequest)
    (hpos : 1 ≤ maxTries)
    (h : ∀ j, j < maxTries → ∃ r, oracle j = .ok r ∧ retryableCodes r.status = true) :
    ∀ rl, oracle (maxTries - 1) = .ok rl →
      (roundTrip maxTries oracle req).1 = some (.ok (closeBody rl)) ∧
      (roundTrip maxTries oracle req).2.length = maxTries := by
  obtain ⟨n, rfl⟩ : ∃ n, maxTries = n + 1 := ⟨maxTries - 1, by omega⟩
  intro rl hrl
  have hmain := rtLoop_all_retryable n 0 oracle
    (requestSentAt req (if req.hasBody then req.bodyRemaining else []))
    (fun j hj => by simpa using h j (by omega))
    rl (by simpa using hrl)
  simpa [roundTrip] using hmain

/-- Oracle answering every attempt with the same retryable 503 carrying
body byte 7. -/
def allRetryOracle : Nat → Except (List Char) HttpResponse := fun _ =>
  .ok { status := 503, body := [7], bodyClosed := false }

/-- A GET request without a body. -/
def noBodyReq : HttpRequest :=
  { method := "GET".toList, url := "u".toList, headers := [],
    hasBody := false, bodyRemaining := [] }

/-- Claim C4 counterexample: with maxTries = 2 and both attempts answering
the retryable 503, the call does make exactly 2 attempts, but the response
handed back is not the final response unmodified: the loop closed its body
(bodyClosed = true), while the wrapped transport produced it with an open
body (bodyClosed = false). -/
theorem all_retryable_counterexample :
    (roundTrip 2 allRetryOracle noBodyReq).1 =
      some (.ok { status := 503, body := [7], bodyClosed := true }) ∧
    (roundTrip 2 allRetryOracle noBodyReq).2.length = 2 ∧
    allRetryOracle 1 = .ok { status := 503, body := [7], bodyClosed := false } ∧
    (roundTrip 2 allRetryOracle noBodyReq).1 ≠
      some (.ok { status := 503, body := [7], bodyClosed := false }) := by
  refine ⟨rfl, rfl, rfl, by decide⟩

/-- Witness for C4 (amended) at maxTries = 2 with the all-503 oracle. -/
theorem all_retryable_returns_last_closed_witness :
    (roundTrip 2 allRetryOracle noBodyReq).1 =
      some (.ok (closeBody { status := 503, body := [7], bodyClosed := false })) ∧
    (roundTrip 2 allRetryOracle noBodyReq).2.length = 2 :=
  all_retryable_returns_last_closed 2 allRetryOracle noBodyReq (by omega)
    (fun _ _ => ⟨{ status := 503, body := [7], bodyClosed := false }, rfl, rfl⟩)
    { status := 503, body := [7], bodyClosed := false } rfl

/-- A POST request whose body stream holds the bytes [1, 2, 3]. -/
def bodiedReq : HttpRequest :=
  { method := "POST".toList, url := "u".toList, headers := [],
    hasBody := true, bodyRemaining := [1, 2, 3] }

/-- Oracle for the C3 failing input: attempt 0 answers a retryable 503,
attempt 1 a non-retryable 200. -/
def oneRetryOracle : Nat → Except (List Char) HttpResponse
  | 0 => .ok { status := 503, body := [], bodyClosed := false }
  | _ + 1 => .ok { status := 200, body := [9], bodyClosed := false }

/-- Claim C3 at the failing input: with maxTries = 5, a POST carrying body
bytes [1, 2, 3], a retryable 503 on the first attempt and a 200 on the
second, the call does return the 200 response after exactly 2 attempts —
but the attempts do not carry identical request bodies: buffering consumed
the body stream of the caller, so the first attempt transmits no body bytes
while the second transmits the buffered [1, 2, 3]. -/
theorem retry_first_attempt_body_drained :
    (roundTrip retryTransportMaxTries oneRetryOracle bodiedReq).1 =
      some (.ok { status := 200, body := [9], bodyClosed := false }) ∧
    (roundTrip retryTransportMaxTries oneRetryOracle bodiedReq).2.map
        SentRecord.sentBody = [some [], some [1, 2, 3]] := by
  refine ⟨rfl, rfl⟩

/- ---------------------------------------------------------------------
   The worker pipeline (imageProcessor.process / processImage /
   getImageBytes) with an explicit effect trace.
   --------------------------------------------------------------------- -/

/-- The imagemagick invocation built by `moderateCommand`, the profile
wired into the active pipeline: the argument list of the external tool. -/
def moderateCommand (inp outp : List Char) : List (List Char) :=
  ["convert".toList, inp, "-auto-orient".toList, "-antialias".toList,
    "-contrast".toList, "-thumbnail".toList, "100x100".toList, outp]

/-- Externally visible actions of one worker processing one request. -/
inductive Effect where
  | fetchMeta (bucket objName : List Char)
  | download
  | readBody
  | closeResp
  | writeFile (fname : List Char)
  | runCmd (args : List (List Char))
  | openFile (fname : List Char)
  | uploadObj (bucket objName : List Char)
  | closeFile (fname : List Char)
  | removeFile (fname : List Char)
  deriving DecidableEq, Repr

/-- How one `processImage` call ends: a normal nil return, an error
return (logged by the loop, which then continues), or a panic — which in
the source is never recovered and therefore kills the worker goroutine
and with it the process. -/
inductive POutcome where
  | ok
  | errReturn
  | panicked
  deriving DecidableEq, Repr

/-- Success or failure of each fallible step of one request, fixing the
behaviour of the collaborators (storage service, network, local
filesystem, conversion subprocess) for that request. -/
structure StageOutcomes where
  metaOk : Bool
  downloadOk : Bool
  readOk : Bool
  writeOk : Bool
  convertOk : Bool
  openOk : Bool
  uploadOk : Bool
  deriving DecidableEq, Repr

/-- Method `imageProcessor.processImage` (with `getImageBytes` inlined) as an
effect trace plus an outcome.

Fetch: any failure of the metadata lookup, the download, or the body read
calls `l.Panicf`, so the call panics (the deferred `resp.Body.Close()`
still runs once the response exists).  Stage: a `WriteFile` failure is an
error return; on success `os.Remove(filename)` is deferred.  Transform:
a failing `convert` is an error return, after which the deferred remove
runs; on success `os.Remove(saveToFilename)` is deferred.  Upload: a
failing `os.Open` is an error return; after `Objects.Insert(...).Do()`
fails, the code logs and then dereferences the nil result in the final
log statement, a panic — the deferred `file.Close` and the two removes
run while unwinding, last-registered first, in both the failing and the
successful upload case. -/
def processImage (o : StageOutcomes) (r : processImageReq) :
    List Effect × POutcome :=
  if !o.metaOk then
    ([.fetchMeta r.sourceBucket r.filename], .panicked)
  else if !o.downloadOk then
    ([.fetchMeta r.sourceBucket r.filename, .download], .panicked)
  else if !o.readOk then
    ([.fetchMeta r.sourceBucket r.filename, .download, .readBody, .closeResp],
      .panicked)
  else if !o.writeOk then
    ([.fetchMeta r.sourceBucket r.filename, .download, .readBody, .closeResp,
      .writeFile r.filename], .errReturn)
  else if !o.convertOk then
    ([.fetchMeta r.sourceBucket r.filename, .download, .readBody, .closeResp,
      .writeFile r.filename,
      .runCmd (moderateCommand r.filename r.saveToFilename),
      .removeFile r.filename], .errReturn)
  else if !o.openOk then
    ([.fetchMeta r.sourceBucket r.filename, .download, .readBody, .closeResp,
      .writeFile r.filename,
      .runCmd (moderateCommand r.filename r.saveToFilename),
      .openFile r.saveToFilename,
      .removeFile r.saveToFilename, .removeFile r.filename], .errReturn)
  else
    ([.fetchMeta r.sourceBucket r.filename, .download, .readBody, .closeResp,
      .writeFile r.filename,
      .runCmd (moderateCommand r.filename r.saveToFilename),
      .openFile r.saveToFilename,
      .uploadObj r.saveToBucket r.saveToFilename,
      .closeFile r.saveToFilename,
      .removeFile r.saveToFilename, .removeFile r.filename],
      if o.uploadOk then .ok else .panicked)

/-- Method `imageProcessor.process`: the worker loop.  It pulls queued requests
in order; an `errReturn` from `processImage` is only logged and the loop
continues; a panic is not recovered, so the loop dies and the remaining
requests are never processed.  Returns the accumulated effect
trace and whether the worker is still alive. -/
def processWorker : List (StageOutcomes × processImageReq) → List Effect × Bool
  | [] => ([], true)
  | (o, r) :: rest =>
    let p := processImage o r
    match p.2 with
    | .panicked => (p.1, false)
    | _ =>
      let q := processWorker rest
      (p.1 ++ q.1, q.2)

/- ---------------------------------------------------------------------
   Worker-pipeline claims.
   --------------------------------------------------------------------- -/

/-- Helper: the two-element list `[a, b]` embeds in order into
`pre ++ a :: (mid ++ [b])`. -/
theorem pair_sublist {α : Type} (a b : α) (pre mid : List α) :
    List.Sublist [a, b] (pre ++ a :: (mid ++ [b])) := by
  induction pre with
  | nil => exact List.Sublist.cons₂ a (List.sublist_append_right mid [b])
  | cons c t ih => exact List.Sublist.cons c ih

/-- Claim C9: once the fetch succeeded and the staged input scratch file
was written, every exit path of `processImage` — success, conversion
failure, open failure, or upload failure — removes that file afterwards
(the deferred remove also runs while a panic unwinds); and when the
transform stage fails, no upload is attempted. -/
theorem staged_input_always_removed (o : StageOutcomes) (r : processImageReq)
    (h1 : o.metaOk = true) (h2 : o.downloadOk = true) (h3 : o.readOk = true)
    (h4 : o.writeOk = true) :
    List.Sublist [Effect.writeFile r.filename, Effect.removeFile r.filename]
      (processImage o r).1 ∧
    (o.convertOk = false →
      Effect.uploadObj r.saveToBucket r.saveToFilename ∉ (processImage o r).1) := by
  cases hc : o.convertOk with
  | false =>
    have htr : (processImage o r).1 =
        [Effect.fetchMeta r.sourceBucket r.filename, Effect.download,
          Effect.readBody, Effect.closeResp, Effect.writeFile r.filename,
          Effect.runCmd (moderateCommand r.filename r.saveToFilename),
          Effect.removeFile r.filename] := by
      simp [processImage, h1, h2, h3, h4, hc]
    constructor
    · rw [htr]
      exact pair_sublist (Effect.writeFile r.filename)
        (Effect.removeFile r.filename)
        [Effect.fetchMeta r.sourceBucket r.filename, Effect.download,
          Effect.readBody, Effect.closeResp]
        [Effect.runCmd (moderateCommand r.filename r.saveToFilename)]
    · intro _
      rw [htr]
      simp
  | true =>
    cases ho : o.openOk with
    | false =>
      have htr : (processImage o r).1 =
          [Effect.fetchMeta r.sourceBucket r.filename, Effect.download,
            Effect.readBody, Effect.closeResp, Effect.writeFile r.filename,
            Effect.runCmd (moderateCommand r.filename r.saveToFilename),
            Effect.openFile r.saveToFilename,
            Effect.removeFile r.saveToFilename,
            Effect.removeFile r.filename] := by
        simp [processImage, h1, h2, h3, h4, hc, ho]
      constructor
      · rw [htr]
        exact pair_sublist (Effect.writeFile r.filename)
          (Effect.removeFile r.filename)
          [Effect.fetchMeta r.sourceBucket r.filename, Effect.download,
            Effect.readBody, Effect.closeResp]
          [Effect.runCmd (moderateCommand r.filename r.saveToFilename),
            Effect.openFile r.saveToFilename,
            Effect.removeFile r.saveToFilename]
      · intro hfalse
        exact Bool.noConfusion hfalse
    | true =>
      have htr : (processImage o r).1 =
          [Effect.fetchMeta r.sourceBucket r.filename, Effect.download,
            Effect.readBody, Effect.closeResp, Effect.writeFile r.filename,
            Effect.runCmd (moderateCommand r.filename r.saveToFilename),
            Effect.openFile r.saveToFilename,
            Effect.uploadObj r.saveToBucket r.saveToFilename,
            Effect.closeFile r.saveToFilename,
            Effect.removeFile r.saveToFilename,
            Effect.removeFile r.filename] := by
        simp [processImage, h1, h2, h3, h4, hc, ho]
      constructor
      · rw [htr]
        exact pair_sublist (Effect.writeFile r.filename)
          (Effect.removeFile r.filename)
          [Effect.fetchMeta r.sourceBucket r.filename, Effect.download,
            Effect.readBody, Effect.closeResp]
          [Effect.runCmd (moderateCommand r.filename r.saveToFilename),
            Effect.openFile r.saveToFilename,
            Effect.uploadObj r.saveToBucket r.saveToFilename,
            Effect.closeFile r.saveToFilename,
            Effect.removeFile r.saveToFilename]
      · intro hfalse
        exact Bool.noConfusion hfalse

/-- Stage outcomes with every collaborator succeeding. -/
def allOkOutcome : StageOutcomes :=
  { metaOk := true, downloadOk := true, readOk := true, writeOk := true,
    convertOk := true, openOk := true, uploadOk := true }

/-- Stage outcomes whose metadata lookup (the first fetch step) fails. -/
def fetchFailOutcome : StageOutcomes :=
  { metaOk := false, downloadOk := true, readOk := true, writeOk := true,
    convertOk := true, openOk := true, uploadOk := true }

/-- Stage outcomes whose conversion subprocess fails. -/
def convertFailOutcome : StageOutcomes :=
  { metaOk := true, downloadOk := true, readOk := true, writeOk := true,
    convertOk := false, openOk := true, uploadOk := true }

/-- Stage outcomes whose storage upload fails. -/
def uploadFailOutcome : StageOutcomes :=
  { metaOk := true, downloadOk := true, readOk := true, writeOk := true,
    convertOk := true, openOk := true, uploadOk := false }

/-- A second queued request, distinct from `sampleReq`. -/
def reqB : processImageReq :=
  { sourceBucket := "in".toList, filename := "b.jpg".toList,
    saveToBucket := "out".toList, saveToFilename := "b-t.jpg".toList }

/-- Witness for C9 at a concrete conversion failure: the staged input
file is written and later removed, and no upload is attempted. -/
theorem staged_input_always_removed_witness :
    List.Sublist
      [Effect.writeFile sampleReq.filename, Effect.removeFile sampleReq.filename]
      (processImage convertFailOutcome sampleReq).1 ∧
    Effect.uploadObj sampleReq.saveToBucket sampleReq.saveToFilename ∉
      (processImage convertFailOutcome sampleReq).1 :=
  ⟨(staged_input_always_removed convertFailOutcome sampleReq rfl rfl rfl rfl).1,
    (staged_input_always_removed convertFailOutcome sampleReq rfl rfl rfl rfl).2 rfl⟩

/-- Claim C2 at the failing input: when the metadata lookup of the first
queued request fails, the whole trace of the worker is that single fetch
attempt — the transformation tool is never invoked and no upload is
attempted — but, contrary to the claim, the worker does not remain
available: `l.Panicf` panics, the loop dies (alive = false) and the
second queued request is never processed. -/
theorem fetch_failure_kills_worker :
    processWorker [(fetchFailOutcome, sampleReq), (allOkOutcome, reqB)] =
      ([Effect.fetchMeta sampleReq.sourceBucket sampleReq.filename], false) := by
  rfl

/-- Claim C7 at failing inputs: not every per-request error is caught at
the worker boundary.  An upload failure is logged but then the nil
insert result is dereferenced in the final log statement, a panic; the
worker loop dies instead of proceeding to the next queued item. -/
theorem upload_failure_kills_worker :
    (processImage uploadFailOutcome sampleReq).2 = POutcome.panicked ∧
    (processWorker [(uploadFailOutcome, sampleReq), (allOkOutcome, reqB)]).2 = false :=
  ⟨rfl, rfl⟩
